/-
Verification of the permessage-deflate WebSocket codec
(src/src/codec/deflate/blocking.rs) against its specification.

The Rust source is shallowly embedded:
* machine bytes are `Nat` (masking uses XOR, which is well defined on `Nat`);
* the outbound stream is a trace of `WriteEvent`s (frame writes and
  compressor resets), inbound I/O is a list of already-parsed raw frames
  (the inner frame parser lives in `crate::codec`, outside src/);
* the DEFLATE compressor and inflater are external engines (`flate2`),
  modelled as pure functions on the concatenated input slices, as the
  adapter contract in the spec (section 4.2) describes; `reset()` on the
  write side is recorded as a trace event;
* fallible operations return `Except`.
-/
import Mathlib

set_option linter.unusedVariables false

/-- Decidable equality for `Except`, used to evaluate the codec's
fallible operations at concrete inputs. -/
instance {ε α : Type} [DecidableEq ε] [DecidableEq α] : DecidableEq (Except ε α) :=
  fun x y =>
    match x, y with
    | .error a, .error b =>
        if h : a = b then isTrue (by rw [h])
        else isFalse fun hc => h (by cases hc; rfl)
    | .ok a, .ok b =>
        if h : a = b then isTrue (by rw [h])
        else isFalse fun hc => h (by cases hc; rfl)
    | .error _, .ok _ => isFalse fun hc => Except.noConfusion hc
    | .ok _, .error _ => isFalse fun hc => Except.noConfusion hc

/-! ## Data model

`OpCode` is the closed opcode set of the spec (section 3): any other wire
value is rejected by the frame parser before reaching this codec. -/

inductive OpCode
  | Continue
  | Text
  | Binary
  | Close
  | Ping
  | Pong
deriving DecidableEq

/-- `OpCode::is_data` from `crate::frame`: Text, Binary and Continue are
data frames (spec section 3). -/
def OpCode.is_data : OpCode → Bool
  | .Continue | .Text | .Binary => true
  | _ => false

/-- The protocol-error kinds used by this file of the source
(`crate::errors::ProtocolError`). -/
inductive ProtocolErrorKind
  | CompressedControlFrame
  | MissInitialFragmentedFrame
  | NotContinueFrameAfterFragmented
  | InvalidUtf8
deriving DecidableEq

/-- `crate::errors::WsError`, restricted to the variants this source file
produces.  IO failure carries no payload in the model. -/
inductive WsError
  | IOError
  | ProtocolError (close_code : Nat) (error : ProtocolErrorKind)
  | CompressFailed (msg : String)
  | DeCompressFailed (msg : String)
  | UnsupportedFrame (code : OpCode)
  | HandShakeFailed (msg : String)
deriving DecidableEq

/-- Modelled from the spec: the `validate_utf8` frame-configuration enum
(section 3): `Off` = no validation, `Check` = validate only final Text
frames, `FastFail` = validate each fragment as it arrives.  The enum
itself lives in `crate::codec`, outside src/. -/
inductive ValidateUtf8Policy
  | Off
  | Check
  | FastFail
deriving DecidableEq

/-- Modelled from the spec: `FastFail` is the fast-fail mode. -/
def ValidateUtf8Policy.is_fast_fail : ValidateUtf8Policy → Bool
  | .FastFail => true
  | _ => false

/-- Modelled from the spec: both `Check` and `FastFail` validate a final
Text frame; `Off` skips validation. -/
def ValidateUtf8Policy.should_check : ValidateUtf8Policy → Bool
  | .Off => false
  | _ => true

/-- `crate::frame::SimplifiedHeader`: the decoded header fields the read
pipeline consumes and rewrites. -/
structure SimplifiedHeader where
  fin : Bool
  rsv1 : Bool
  rsv2 : Bool
  rsv3 : Bool
  code : OpCode
deriving DecidableEq

/-- PMD (permessage-deflate) configuration, spec section 3. -/
structure PMDConfig where
  server_no_context_takeover : Bool
  client_no_context_takeover : Bool
  server_max_window_bits : Nat
  client_max_window_bits : Nat
deriving DecidableEq

/-- Frame configuration options recognized by the codec (spec section 3). -/
structure FrameConfig where
  mask_send_frame : Bool
  auto_fragment_size : Nat
  merge_frame : Bool
  validate_utf8 : ValidateUtf8Policy
deriving DecidableEq

/-- Modelled from the spec: `FrameConfig::default()` (from `crate::codec`,
outside src/): clients mask outbound frames (section 3), fragmentation off,
Continue chains are merged, and `Check` is the conservative default
UTF-8 policy (section 4.4). -/
def FrameConfig.default : FrameConfig :=
  { mask_send_frame := true
    auto_fragment_size := 0
    merge_frame := true
    validate_utf8 := ValidateUtf8Policy.Check }

/-- Modelled from the spec: `apply_mask` from `crate::codec` (outside
src/), spec section 4.1: `out[i] = in[i] XOR key[i mod 4]`.  The 4-byte
key is a list, read cyclically. -/
def apply_mask (data : List Nat) (key : List Nat) : List Nat :=
  data.mapIdx fun i b => b ^^^ key.getD (i % 4) 0

/-- `crate::frame::Header` in decoded form (spec section 3): flag bits,
optional mask key, opcode.  The payload length is the payload list's
length and is not duplicated here. -/
structure Header where
  fin : Bool
  rsv1 : Bool
  rsv2 : Bool
  rsv3 : Bool
  mask : Option (List Nat)
  code : OpCode
deriving DecidableEq

/-- `crate::frame::OwnedFrame`: a decoded header plus a contiguous payload
buffer; the stored payload is already masked when a key is present. -/
structure OwnedFrame where
  header : Header
  payload : List Nat

/-- Modelled from the spec: `OwnedFrame::new(code, mask, data)` (from
`crate::frame`, outside src/) builds a frame whose header has `fin=true`
and all reserved bits clear (section 4.3: an empty payload send produces a
single frame with `fin=true`, no RSV1), storing the payload masked when a
key is given. -/
def OwnedFrame.new (code : OpCode) (mask : Option (List Nat)) (data : List Nat) :
    OwnedFrame :=
  { header := { fin := true, rsv1 := false, rsv2 := false, rsv3 := false
                mask := mask, code := code }
    payload :=
      match mask with
      | some key => apply_mask data key
      | none => data }

/-- `OwnedFrame::unmask()`: returns the prior mask key (if any), unmasks
the payload in place and clears the key (spec section 3). -/
def OwnedFrame.unmask (f : OwnedFrame) : Option (List Nat) × OwnedFrame :=
  match f.header.mask with
  | some key =>
      (some key,
        { header := { f.header with mask := none }
          payload := apply_mask f.payload key })
  | none => (none, f)

/-- `OwnedFrame::mask(key)`: masks the payload in place and records the
key in the header. -/
def OwnedFrame.mask (f : OwnedFrame) (key : List Nat) : OwnedFrame :=
  { header := { f.header with mask := some key }
    payload := apply_mask f.payload key }

/-! ## Compression engine adapters

The compressor/inflater handles live in the deflate module's `mod.rs`,
which is not under src/.  Modelled from the spec (section 4.2): each
adapter wraps an external DEFLATE engine; `compress`/`de_compress` act on
the concatenation of the input slices, so the engine itself is a pure
function on the concatenated bytes. -/

/-- Write-side handler: negotiated PMD parameters plus the compressor
engine.  `com` appends the sync-flush compressed form of its input. -/
structure ComHandler where
  config : PMDConfig
  com : List Nat → Except String (List Nat)

/-- Modelled from the spec: `compress(inputs, out)` compresses the
concatenated input slices (section 4.2). -/
def ComHandler.compress (h : ComHandler) (inputs : List (List Nat)) :
    Except String (List Nat) :=
  h.com inputs.flatten

/-- Read-side handler: negotiated PMD parameters plus the inflater
engine. -/
structure DeHandler where
  config : PMDConfig
  de : List Nat → Except String (List Nat)

/-- Modelled from the spec: `de_compress(inputs, out)` inflates the
concatenated input slices (section 4.2). -/
def DeHandler.de_compress (h : DeHandler) (inputs : List (List Nat)) :
    Except String (List Nat) :=
  h.de inputs.flatten

/-! ## States -/

/-- `DeflateWriteState` (fields from the spec, section 3: frame
configuration, optional compressor handle, server flag; the reusable
header serialization buffer is immaterial in the model). -/
structure DeflateWriteState where
  config : FrameConfig
  com : Option ComHandler
  is_server : Bool

/-- `DeflateReadState` (spec section 3): frame configuration, optional
inflater handle, server flag, fragmentation flag and opening opcode,
accumulator, and the isolated control-frame buffer. -/
structure DeflateReadState where
  config : FrameConfig
  de : Option DeHandler
  is_server : Bool
  fragmented : Bool
  fragmented_type : OpCode
  fragmented_data : List Nat
  control_buf : List Nat

/-! ## Write pipeline

The bytes the write pipeline puts on the stream are recorded as a trace:
each `ctor_header` + payload write becomes one `frame` event (decoded
header plus the payload bytes as written, i.e. after masking), and each
compressor `reset()` becomes a `reset` event. -/

inductive WriteEvent
  | frame (header : Header) (payload : List Nat)
  | reset
deriving DecidableEq

/-- The frames of a write trace, in order (reset events dropped). -/
def frameEvents (evs : List WriteEvent) : List (Header × List Nat) :=
  evs.filterMap fun e =>
    match e with
    | .frame h p => some (h, p)
    | .reset => none

/-- Number of compressor resets in a write trace. -/
def countResets (evs : List WriteEvent) : Nat :=
  (evs.filter fun e =>
    match e with
    | .reset => true
    | _ => false).length

/-- `true` iff the trace is a sequence of frame-write events each
immediately followed by a compressor reset. -/
def framesWithReset : List WriteEvent → Bool
  | [] => true
  | .frame _ _ :: .reset :: rest => framesWithReset rest
  | _ => false

/-- `DeflateWriteState::send_owned_frame` (blocking.rs lines 17-67).
Control frames pass through verbatim; data frames are compressed when a
compressor is configured: unmask, compress the payload, strip the 4-byte
sync-flush trailer, rebuild the frame with RSV1 set (the `set_fin` call in
the source reads the new frame's own header and is a no-op), reset the
compressor when the local role's no-context-takeover bit is set, then
write.  Without a compressor the frame is re-masked and sent as-is. -/
def DeflateWriteState.send_owned_frame (st : DeflateWriteState)
    (frame : OwnedFrame) : Except WsError (List WriteEvent) :=
  if !frame.header.code.is_data then
    Except.ok [WriteEvent.frame frame.header frame.payload]
  else
    let pm := frame.unmask
    let prev_mask := pm.1
    let frame := pm.2
    let header := frame.header
    match st.com with
    | some handler =>
        match handler.compress [frame.payload] with
        | .error code => Except.error (WsError.CompressFailed code)
        | .ok compressed =>
            let compressed := compressed.take (compressed.length - 4)
            let new := OwnedFrame.new header.code prev_mask compressed
            let newHeader := { new.header with rsv1 := true }
            -- `header.set_fin(header.fin())` in the source: reads and
            -- rewrites the same (new) header field, leaving it unchanged
            let newHeader := { newHeader with fin := newHeader.fin }
            let new := { new with header := newHeader }
            let resetEvs :=
              if (st.is_server && handler.config.server_no_context_takeover)
                  || (!st.is_server && handler.config.client_no_context_takeover)
              then [WriteEvent.reset]
              else []
            Except.ok (resetEvs ++ [WriteEvent.frame new.header new.payload])
    | none =>
        let frame :=
          match prev_mask with
          | some key => frame.mask key
          | none => frame
        Except.ok [WriteEvent.frame frame.header frame.payload]

/-- The chunk loop of `DeflateWriteState::send` (blocking.rs lines
97-156): one frame per chunk, `fin` on the last chunk only, masked when
configured, compressed (trailer-stripped, RSV1 set) when a compressor is
configured and the opcode is a data opcode, with the compressor reset
after a compressed fragment when the local role's no-context-takeover bit
is set.  `masks` is the oracle for `random()` mask keys, indexed by chunk
position. -/
def DeflateWriteState.sendChunks (st : DeflateWriteState)
    (masks : Nat → List Nat) (code : OpCode) (total : Nat) :
    Nat → List (List Nat) → Except WsError (List WriteEvent)
  | _, [] => Except.ok []
  | idx, chunk :: rest =>
      let fin := idx + 1 == total
      let mask := if st.config.mask_send_frame then some (masks idx) else none
      match st.com, code.is_data with
      | some handler, true =>
          match handler.compress [chunk] with
          | .error e => Except.error (WsError.CompressFailed e)
          | .ok output =>
              let output := output.take (output.length - 4)
              let hdr : Header :=
                { fin := fin, rsv1 := true, rsv2 := false, rsv3 := false
                  mask := mask, code := code }
              let outMasked :=
                match mask with
                | some key => apply_mask output key
                | none => output
              let resetEvs :=
                if (st.is_server && handler.config.server_no_context_takeover)
                    || (!st.is_server && handler.config.client_no_context_takeover)
                then [WriteEvent.reset]
                else []
              (DeflateWriteState.sendChunks st masks code total (idx + 1) rest).map
                fun evs => WriteEvent.frame hdr outMasked :: (resetEvs ++ evs)
      | _, _ =>
          let hdr : Header :=
            { fin := fin, rsv1 := false, rsv2 := false, rsv3 := false
              mask := mask, code := code }
          let dataMasked :=
            match mask with
            | some key => apply_mask chunk key
            | none => chunk
          (DeflateWriteState.sendChunks st masks code total (idx + 1) rest).map
            fun evs => WriteEvent.frame hdr dataMasked :: evs

/-- `payload.chunks(n)` with a fuel argument (the list length suffices
when `n > 0`, matching the source where the chunk size is always
positive). -/
def chunksGo (n : Nat) : Nat → List Nat → List (List Nat)
  | 0, _ => []
  | _, [] => []
  | fuel + 1, a :: l => (a :: l).take n :: chunksGo n fuel ((a :: l).drop n)

/-- Rust `slice::chunks(n)`: split into consecutive chunks of length `n`,
the last possibly shorter. -/
def chunksOf (n : Nat) (l : List Nat) : List (List Nat) :=
  chunksGo n l.length l

/-- `DeflateWriteState::send` (blocking.rs lines 72-158): an empty payload
becomes one owned frame routed through `send_owned_frame`; otherwise the
payload is chunked (`auto_fragment_size`, or one chunk when 0) and the
chunk loop runs. -/
def DeflateWriteState.send (st : DeflateWriteState) (masks : Nat → List Nat)
    (code : OpCode) (payload : List Nat) : Except WsError (List WriteEvent) :=
  if payload.isEmpty then
    let mask := if st.config.mask_send_frame then some (masks 0) else none
    st.send_owned_frame (OwnedFrame.new code mask [])
  else
    let chunk_size :=
      if st.config.auto_fragment_size > 0 then st.config.auto_fragment_size
      else payload.length
    let parts := chunksOf chunk_size payload
    let total := parts.length
    st.sendChunks masks code total 0 parts

/-! ## UTF-8 validation

`simdutf8::basic::from_utf8` is an external crate; modelled from the spec
("Invalid UTF-8" on Text payloads) as the standard RFC 3629 acceptance
automaton: shortest-form encodings only, surrogates rejected, code points
up to U+10FFFF. -/

/-- States of the UTF-8 acceptance automaton: `s0` between code points,
`c1`/`c2`/`c3` expecting that many unrestricted continuation bytes, and
the range-restricted states after a leading `E0`/`ED`/`F0`/`F4` byte. -/
inductive Utf8State
  | s0 | c1 | c2 | c3 | e0 | ed | f0 | f4
deriving DecidableEq

/-- One byte of the RFC 3629 automaton; `none` means invalid. -/
def utf8Step (s : Utf8State) (b : Nat) : Option Utf8State :=
  match s with
  | .s0 =>
      if b ≤ 0x7F then some .s0
      else if 0xC2 ≤ b ∧ b ≤ 0xDF then some .c1
      else if b = 0xE0 then some .e0
      else if b = 0xED then some .ed
      else if (0xE1 ≤ b ∧ b ≤ 0xEC) ∨ b = 0xEE ∨ b = 0xEF then some .c2
      else if b = 0xF0 then some .f0
      else if 0xF1 ≤ b ∧ b ≤ 0xF3 then some .c3
      else if b = 0xF4 then some .f4
      else none
  | .c1 => if 0x80 ≤ b ∧ b ≤ 0xBF then some .s0 else none
  | .c2 => if 0x80 ≤ b ∧ b ≤ 0xBF then some .c1 else none
  | .c3 => if 0x80 ≤ b ∧ b ≤ 0xBF then some .c2 else none
  | .e0 => if 0xA0 ≤ b ∧ b ≤ 0xBF then some .c1 else none
  | .ed => if 0x80 ≤ b ∧ b ≤ 0x9F then some .c1 else none
  | .f0 => if 0x90 ≤ b ∧ b ≤ 0xBF then some .c2 else none
  | .f4 => if 0x80 ≤ b ∧ b ≤ 0x8F then some .c2 else none

/-- Run the automaton over a byte list. -/
def utf8Run (s : Utf8State) : List Nat → Option Utf8State
  | [] => some s
  | b :: rest =>
      match utf8Step s b with
      | some s2 => utf8Run s2 rest
      | none => none

/-- `simdutf8::basic::from_utf8(data).is_ok()`: the bytes are a valid
UTF-8 encoded string. -/
def validUtf8 (data : List Nat) : Bool :=
  utf8Run Utf8State.s0 data == some Utf8State.s0

/-! ## Read pipeline

Incoming I/O is a list of raw frames `(SimplifiedHeader, bytes)` as the
inner `crate::codec` read state yields them (one `read_state.receive` call
pops one frame; an empty list is a stream error, standing for the
underlying IO failure). -/

def RawFrame : Type := SimplifiedHeader × List Nat

/-- `DeflateReadState::receive_one` (blocking.rs lines 162-209), applied
to the raw frame popped from the stream: reject RSV1 on non-data frames
(1002 `CompressedControlFrame`), pass uncompressed or non-data frames
through, inflate compressed data frames with the virtual
`[0x00,0x00,0xFF,0xFF]` tail chunk and clear RSV1, or fail when no
inflater is configured.  The inflater's dictionary (reset on
no-context-takeover) lives in the external engine, which the model treats
as a pure function, so the state is unchanged. -/
def DeflateReadState.receive_one (st : DeflateReadState)
    (header : SimplifiedHeader) (data : List Nat) :
    Except WsError (SimplifiedHeader × List Nat) :=
  let compressed := header.rsv1
  let is_data_frame := header.code.is_data
  if compressed && !is_data_frame then
    Except.error (WsError.ProtocolError 1002 ProtocolErrorKind.CompressedControlFrame)
  else if !is_data_frame || !compressed then
    Except.ok (header, data)
  else
    match st.de with
    | some handler =>
        match handler.de_compress [data, [0, 0, 255, 255]] with
        | .error code => Except.error (WsError.DeCompressFailed code)
        | .ok de_data =>
            Except.ok ({ header with rsv1 := false }, de_data)
    | none =>
        if header.rsv1 then
          Except.error (WsError.DeCompressFailed
            "extension not enabled but got compressed frame")
        else
          Except.ok (header, data)

/-- `DeflateReadState::receive` (blocking.rs lines 212-285): loop over
`receive_one`; with `merge_frame=false` surface each frame through the
accumulator; otherwise run the RFC 6455 reassembly state machine.  The
result triple is (what the call returns, the final read state, the frames
left on the stream).  The opcode match in the source ends in an
`UnsupportedFrame` arm, unreachable here because `OpCode` is the closed
six-value set the frame parser admits. -/
def DeflateReadState.receive :
    DeflateReadState → List RawFrame →
    Except WsError (SimplifiedHeader × List Nat) × DeflateReadState × List RawFrame
  | st, [] => (Except.error WsError.IOError, st, [])
  | st, (header0, data0) :: rest =>
      match st.receive_one header0 data0 with
      | .error e => (Except.error e, st, rest)
      | .ok (header, data) =>
          if !st.config.merge_frame then
            (Except.ok (header, data), { st with fragmented_data := data }, rest)
          else
            match header.code with
            | .Continue =>
                if !st.fragmented then
                  (Except.error (WsError.ProtocolError 1002
                      ProtocolErrorKind.MissInitialFragmentedFrame), st, rest)
                else
                  let fin := header.fin
                  let st := { st with fragmented_data := st.fragmented_data ++ data }
                  if fin then
                    let st := { st with fragmented := false }
                    (Except.ok ({ header with code := st.fragmented_type },
                        st.fragmented_data), st, rest)
                  else
                    DeflateReadState.receive st rest
            | .Text | .Binary =>
                if st.fragmented then
                  (Except.error (WsError.ProtocolError 1002
                      ProtocolErrorKind.NotContinueFrameAfterFragmented), st, rest)
                else if !header.fin then
                  let st := { st with fragmented := true, fragmented_type := header.code }
                  if header.code == OpCode.Text
                      && st.config.validate_utf8.is_fast_fail
                      && !(validUtf8 data) then
                    (Except.error (WsError.ProtocolError 1007
                        ProtocolErrorKind.InvalidUtf8), st, rest)
                  else
                    DeflateReadState.receive { st with fragmented_data := data } rest
                else
                  if header.code == OpCode.Text
                      && st.config.validate_utf8.should_check
                      && !(validUtf8 data) then
                    (Except.error (WsError.ProtocolError 1007
                        ProtocolErrorKind.InvalidUtf8), st, rest)
                  else
                    (Except.ok (header, data), { st with fragmented_data := data }, rest)
            | .Close | .Ping | .Pong =>
                (Except.ok (header, data), { st with control_buf := data }, rest)

/-- `DeflateReadState::receive_mut` (blocking.rs lines 288-361): same loop
as `receive`, returning the payload as a mutable slice; transcribed
separately from its own source text. -/
def DeflateReadState.receive_mut :
    DeflateReadState → List RawFrame →
    Except WsError (SimplifiedHeader × List Nat) × DeflateReadState × List RawFrame
  | st, [] => (Except.error WsError.IOError, st, [])
  | st, (header0, data0) :: rest =>
      match st.receive_one header0 data0 with
      | .error e => (Except.error e, st, rest)
      | .ok (header, data) =>
          if !st.config.merge_frame then
            (Except.ok (header, data), { st with fragmented_data := data }, rest)
          else
            match header.code with
            | .Continue =>
                if !st.fragmented then
                  (Except.error (WsError.ProtocolError 1002
                      ProtocolErrorKind.MissInitialFragmentedFrame), st, rest)
                else
                  let fin := header.fin
                  let st := { st with fragmented_data := st.fragmented_data ++ data }
                  if fin then
                    let st := { st with fragmented := false }
                    (Except.ok ({ header with code := st.fragmented_type },
                        st.fragmented_data), st, rest)
                  else
                    DeflateReadState.receive_mut st rest
            | .Text | .Binary =>
                if st.fragmented then
                  (Except.error (WsError.ProtocolError 1002
                      ProtocolErrorKind.NotContinueFrameAfterFragmented), st, rest)
                else if !header.fin then
                  let st := { st with fragmented := true, fragmented_type := header.code }
                  if header.code == OpCode.Text
                      && st.config.validate_utf8.is_fast_fail
                      && !(validUtf8 data) then
                    (Except.error (WsError.ProtocolError 1007
                        ProtocolErrorKind.InvalidUtf8), st, rest)
                  else
                    DeflateReadState.receive_mut { st with fragmented_data := data } rest
                else
                  if header.code == OpCode.Text
                      && st.config.validate_utf8.should_check
                      && !(validUtf8 data) then
                    (Except.error (WsError.ProtocolError 1007
                        ProtocolErrorKind.InvalidUtf8), st, rest)
                  else
                    (Except.ok (header, data), { st with fragmented_data := data }, rest)
            | .Close | .Ping | .Pong =>
                (Except.ok (header, data), { st with control_buf := data }, rest)

/-! ## Construction / PMD negotiation -/

/-- The parameter-selection step shared by `DeflateCodec::factory`
(blocking.rs lines 404-409) and `DeflateCodec::check_fn` (lines 436-441):
`pmd_confs.pop()` takes the **last** collected offer, then both window-bit
parameters are forced to their minimum.  Header collection and
`PMDConfig::parse_str` happen before this step; the model takes the
already-parsed offer list. -/
def selectPmd (pmd_confs : List PMDConfig) : Option PMDConfig :=
  match pmd_confs.getLast? with
  | none => none
  | some conf =>
      let m := Nat.min conf.client_max_window_bits conf.server_max_window_bits
      some { conf with client_max_window_bits := m, server_max_window_bits := m }

/-- Modelled from the spec: `DeflateReadState::with_config` (deflate
`mod.rs`, outside src/): the inflater handle is present iff a PMD
configuration was negotiated (section 3); `engine` builds the external
inflater for the negotiated parameters.  Fragmentation state starts
cleared. -/
def DeflateReadState.with_config
    (engine : PMDConfig → List Nat → Except String (List Nat))
    (config : FrameConfig) (pmd : Option PMDConfig) (is_server : Bool) :
    DeflateReadState :=
  { config := config
    de := pmd.map fun c => { config := c, de := engine c }
    is_server := is_server
    fragmented := false
    fragmented_type := OpCode.Text
    fragmented_data := []
    control_buf := [] }

/-- Modelled from the spec: `DeflateWriteState::with_config` (deflate
`mod.rs`, outside src/): the compressor handle is present iff a PMD
configuration was negotiated (section 3). -/
def DeflateWriteState.with_config
    (engine : PMDConfig → List Nat → Except String (List Nat))
    (config : FrameConfig) (pmd : Option PMDConfig) (is_server : Bool) :
    DeflateWriteState :=
  { config := config
    com := pmd.map fun c => { config := c, com := engine c }
    is_server := is_server }

/-- `DeflateCodec::factory` (blocking.rs lines 390-418), server side:
select the PMD parameters from the collected offers, build the frame
configuration with `mask_send_frame = false`, and construct both states
with `is_server = true`.  `rengine`/`wengine` build the external inflater
and compressor. -/
def DeflateCodec.factory
    (rengine wengine : PMDConfig → List Nat → Except String (List Nat))
    (offers : List PMDConfig) : DeflateReadState × DeflateWriteState :=
  let pmd_conf := selectPmd offers
  let frame_conf := { FrameConfig.default with mask_send_frame := false }
  (DeflateReadState.with_config rengine frame_conf pmd_conf true,
   DeflateWriteState.with_config wengine frame_conf pmd_conf true)

/-- `DeflateCodec::check_fn` (blocking.rs lines 421-445), client side:
first `standard_handshake_resp_check` (from `crate::protocol`, outside
src/; modelled by its outcome `handshakeOk`), then the same selection with
the default frame configuration and `is_server = false`. -/
def DeflateCodec.check_fn
    (rengine wengine : PMDConfig → List Nat → Except String (List Nat))
    (handshakeOk : Bool) (offers : List PMDConfig) :
    Except WsError (DeflateReadState × DeflateWriteState) :=
  if !handshakeOk then
    Except.error (WsError.HandShakeFailed "handshake response check failed")
  else
    let pmd_conf := selectPmd offers
    Except.ok
      (DeflateReadState.with_config rengine FrameConfig.default pmd_conf false,
       DeflateWriteState.with_config wengine FrameConfig.default pmd_conf false)

/-! ## Concrete instances used to evaluate the model

`rawDeflate` is an admissible compressor engine for the adapter contract
of spec section 4.2: its sync-flush output ends in the empty stored-block
trailer `00 00 FF FF` (here: the input followed by the trailer).
`idInflate` is an inflater engine that returns its input unchanged. -/

def rawDeflate : List Nat → Except String (List Nat) :=
  fun l => Except.ok (l ++ [0, 0, 255, 255])

def idInflate : List Nat → Except String (List Nat) :=
  fun l => Except.ok l

/-- PMD parameters with no-context-takeover on the server side. -/
def pmdNoCtx : PMDConfig :=
  { server_no_context_takeover := true, client_no_context_takeover := false
    server_max_window_bits := 15, client_max_window_bits := 15 }

/-- PMD parameters with context takeover on both sides. -/
def pmdCtx : PMDConfig :=
  { server_no_context_takeover := false, client_no_context_takeover := false
    server_max_window_bits := 15, client_max_window_bits := 15 }

/-- An unmasked server-side frame configuration with merged frames. -/
def plainConfig : FrameConfig :=
  { mask_send_frame := false, auto_fragment_size := 0, merge_frame := true
    validate_utf8 := ValidateUtf8Policy.Check }

/-- Mask oracle used where `random()` keys are irrelevant. -/
def zeroMasks : Nat → List Nat := fun _ => [0, 0, 0, 0]

/-- Write state: compression enabled (context takeover kept), no masking. -/
def writerCompress : DeflateWriteState :=
  { config := plainConfig
    com := some { config := pmdCtx, com := rawDeflate }
    is_server := true }

/-- Write state: compression enabled, server no-context-takeover, and
`auto_fragment_size = 1` so a two-byte payload fragments in two. -/
def writerFragReset : DeflateWriteState :=
  { config := { plainConfig with auto_fragment_size := 1 }
    com := some { config := pmdNoCtx, com := rawDeflate }
    is_server := true }

/-- Write state: no compression, `auto_fragment_size = 2`. -/
def writerPlainFrag : DeflateWriteState :=
  { config := { plainConfig with auto_fragment_size := 2 }
    com := none
    is_server := false }

/-- Write state: compression enabled, fragmentation off. -/
def writerCompressFrag : DeflateWriteState :=
  { config := { plainConfig with auto_fragment_size := 2 }
    com := some { config := pmdCtx, com := rawDeflate }
    is_server := true }

/-- A data frame with `fin=false` (a non-final Continue fragment). -/
def continueFrame : OwnedFrame :=
  { header := { fin := false, rsv1 := false, rsv2 := false, rsv3 := false
                mask := none, code := OpCode.Continue }
    payload := [1] }

/-- Fresh read state with `FastFail` UTF-8 validation and merged frames. -/
def readerFastFail : DeflateReadState :=
  { config := { plainConfig with validate_utf8 := ValidateUtf8Policy.FastFail }
    de := none, is_server := true
    fragmented := false, fragmented_type := OpCode.Text
    fragmented_data := [], control_buf := [] }

/-- Fresh read state with `Check` UTF-8 validation and merged frames. -/
def readerCheck : DeflateReadState :=
  { config := plainConfig
    de := none, is_server := true
    fragmented := false, fragmented_type := OpCode.Text
    fragmented_data := [], control_buf := [] }

/-- Fresh read state with an inflater configured. -/
def readerInflate : DeflateReadState :=
  { config := plainConfig
    de := some { config := pmdCtx, de := idInflate }
    is_server := true
    fragmented := false, fragmented_type := OpCode.Text
    fragmented_data := [], control_buf := [] }

/-- A fragmented Text message whose continuation bytes `[0xFF]` are not
valid UTF-8: initial Text fragment `"a"` with `fin=false`, then the final
Continue fragment. -/
def framesBadContinue : List RawFrame :=
  [({ fin := false, rsv1 := false, rsv2 := false, rsv3 := false, code := OpCode.Text }, [0x61]),
   ({ fin := true, rsv1 := false, rsv2 := false, rsv3 := false, code := OpCode.Continue }, [0xFF])]

/-- A fragmented Text message whose assembled bytes `[0xFF]` are not valid
UTF-8: initial fragment `[0xFF]` with `fin=false`, then an empty final
Continue fragment. -/
def framesBadFragmented : List RawFrame :=
  [({ fin := false, rsv1 := false, rsv2 := false, rsv3 := false, code := OpCode.Text }, [0xFF]),
   ({ fin := true, rsv1 := false, rsv2 := false, rsv3 := false, code := OpCode.Continue }, [])]

/-- The trace `writerPlainFrag.send zeroMasks Text [1,2,3]` produces. -/
def evsPlainFrag : List WriteEvent :=
  [WriteEvent.frame
      { fin := false, rsv1 := false, rsv2 := false, rsv3 := false
        mask := none, code := OpCode.Text } [1, 2],
   WriteEvent.frame
      { fin := true, rsv1 := false, rsv2 := false, rsv3 := false
        mask := none, code := OpCode.Text } [3]]

/-- The trace `writerCompressFrag.send zeroMasks Text [1,2,3]` produces. -/
def evsCompressFrag : List WriteEvent :=
  [WriteEvent.frame
      { fin := false, rsv1 := true, rsv2 := false, rsv3 := false
        mask := none, code := OpCode.Text } [1, 2],
   WriteEvent.frame
      { fin := true, rsv1 := true, rsv2 := false, rsv3 := false
        mask := none, code := OpCode.Text } [3]]

/-- The trace `writerFragReset.send zeroMasks Binary [7,8]` produces: a
compressor reset immediately after each of the two fragments. -/
def evsFragReset : List WriteEvent :=
  [WriteEvent.frame
      { fin := false, rsv1 := true, rsv2 := false, rsv3 := false
        mask := none, code := OpCode.Binary } [7],
   WriteEvent.reset,
   WriteEvent.frame
      { fin := true, rsv1 := true, rsv2 := false, rsv3 := false
        mask := none, code := OpCode.Binary } [8],
   WriteEvent.reset]

/-- The fin pattern of an auto-fragmented message of `k` frames: `false`
on every frame but the last. -/
def finPattern : Nat → List Bool
  | 0 => []
  | k + 1 => List.replicate k false ++ [true]

/-! ## Helper lemmas -/

theorem except_map_ok {ε α β : Type} (f : α → β) (x : Except ε α) (b : β)
    (h : x.map f = Except.ok b) : ∃ a, x = Except.ok a ∧ b = f a := by
  cases x with
  | error e => simp [Except.map] at h
  | ok a => refine ⟨a, rfl, ?_⟩; simpa [Except.map] using h.symm

theorem frameEvents_nil : frameEvents [] = [] := rfl

theorem frameEvents_frame_cons (h : Header) (p : List Nat) (l : List WriteEvent) :
    frameEvents (WriteEvent.frame h p :: l) = (h, p) :: frameEvents l := rfl

theorem frameEvents_reset_cons (l : List WriteEvent) :
    frameEvents (WriteEvent.reset :: l) = frameEvents l := rfl

theorem frameEvents_resetEvs (b : Bool) (l : List WriteEvent) :
    frameEvents ((if b then [WriteEvent.reset] else []) ++ l) = frameEvents l := by
  cases b <;> rfl

theorem ceil_div_step (n len : Nat) (hn : 0 < n) (hlen : 0 < len) :
    (len - n + n - 1) / n + 1 = (len + n - 1) / n := by
  by_cases hle : len ≤ n
  · have h1 : len - n = 0 := by omega
    rw [h1]
    have h2 : (0 + n - 1) / n = 0 := Nat.div_eq_of_lt (by omega)
    have h3 : (len + n - 1) / n = 1 :=
      Nat.div_eq_of_lt_le (by omega) (by omega)
    omega
  · have hlt : n < len := by omega
    have h1 : len - n + n - 1 = (len - 1 - n) + n := by omega
    have h2 : len + n - 1 = (len - 1) + n := by omega
    rw [h1, h2, Nat.add_div_right _ hn, Nat.add_div_right _ hn]
    have h3 : len - 1 - n + n = len - 1 := by omega
    have h4 : (len - 1 - n + n) / n = (len - 1 - n) / n + 1 := Nat.add_div_right _ hn
    rw [h3] at h4
    omega

theorem chunksGo_length (n : Nat) (hn : 0 < n) :
    ∀ (fuel : Nat) (l : List Nat), l.length ≤ fuel →
      (chunksGo n fuel l).length = (l.length + n - 1) / n := by
  intro fuel
  induction fuel with
  | zero =>
      intro l hl
      have h0 : l = [] := List.length_eq_zero.mp (Nat.le_zero.mp hl)
      subst h0
      simp only [chunksGo, List.length_nil]
      exact (Nat.div_eq_of_lt (by omega)).symm
  | succ fuel ih =>
      intro l hl
      cases l with
      | nil =>
          simp only [chunksGo, List.length_nil]
          exact (Nat.div_eq_of_lt (by omega)).symm
      | cons a t =>
          have hdrop : ((a :: t).drop n).length ≤ fuel := by
            simp only [List.length_drop, List.length_cons]
            simp only [List.length_cons] at hl
            omega
          have hrec := ih ((a :: t).drop n) hdrop
          simp only [chunksGo, List.length_cons, hrec, List.length_drop]
          exact ceil_div_step n (t.length + 1) hn (by omega)

theorem chunksOf_length (n : Nat) (l : List Nat) (hn : 0 < n) :
    (chunksOf n l).length = (l.length + n - 1) / n :=
  chunksGo_length n hn l.length l (Nat.le_refl _)

theorem sendChunks_frames (st : DeflateWriteState) (masks : Nat → List Nat)
    (code : OpCode) :
    ∀ (parts : List (List Nat)) (idx : Nat) (evs : List WriteEvent),
      st.sendChunks masks code (idx + parts.length) idx parts = Except.ok evs →
      (frameEvents evs).length = parts.length ∧
      ((frameEvents evs).map fun fp => fp.1.fin) = finPattern parts.length := by
  intro parts
  induction parts with
  | nil =>
      intro idx evs h
      simp only [DeflateWriteState.sendChunks] at h
      cases h
      simp [frameEvents, finPattern]
  | cons c rest ih =>
      intro idx evs h
      simp only [DeflateWriteState.sendChunks] at h
      rcases hcom : st.com with _ | handler <;>
        cases hdata : code.is_data <;>
        simp only [hcom, hdata] at h
      case none.false | none.true | some.false =>
        obtain ⟨evs2, hrec, hevs⟩ := except_map_ok _ _ _ h
        subst hevs
        have htot : idx + (c :: rest).length = idx + 1 + rest.length := by
          simp only [List.length_cons]; omega
        rw [htot] at hrec
        obtain ⟨hlen, hpat⟩ := ih (idx + 1) evs2 hrec
        rw [frameEvents_frame_cons]
        cases rest with
        | nil =>
            simp only [DeflateWriteState.sendChunks] at hrec
            cases hrec
            simp [frameEvents, finPattern]
        | cons r2 rs =>
            refine ⟨by simp [hlen], ?_⟩
            simp only [List.map_cons, hpat, List.length_cons, finPattern]
            have hfin : (idx + 1 == idx + (r2 :: rs).length + 1) = false := by
              rw [beq_eq_false_iff_ne]
              simp only [List.length_cons]
              omega
            simp [hfin, List.replicate_succ]
      case some.true =>
        cases hcp : handler.compress [c] with
        | error e => rw [hcp] at h; simp at h
        | ok output =>
            rw [hcp] at h
            simp only at h
            obtain ⟨evs2, hrec, hevs⟩ := except_map_ok _ _ _ h
            subst hevs
            have htot : idx + (c :: rest).length = idx + 1 + rest.length := by
              simp only [List.length_cons]; omega
            rw [htot] at hrec
            obtain ⟨hlen, hpat⟩ := ih (idx + 1) evs2 hrec
            rw [frameEvents_frame_cons, frameEvents_resetEvs]
            cases rest with
            | nil =>
                simp only [DeflateWriteState.sendChunks] at hrec
                cases hrec
                simp [frameEvents, finPattern]
            | cons r2 rs =>
                refine ⟨by simp [hlen], ?_⟩
                simp only [List.map_cons, hpat, List.length_cons, finPattern]
                have hfin : (idx + 1 == idx + (r2 :: rs).length + 1) = false := by
                  rw [beq_eq_false_iff_ne]
                  simp only [List.length_cons]
                  omega
                simp [hfin, List.replicate_succ]

theorem sendChunks_compressed_payloads (st : DeflateWriteState) (handler : ComHandler)
    (f : List Nat → List Nat) (masks : Nat → List Nat) (code : OpCode)
    (hcom : st.com = some handler) (hf : handler.com = fun l => Except.ok (f l))
    (hdata : code.is_data = true) (hmask : st.config.mask_send_frame = false) :
    ∀ (parts : List (List Nat)) (idx total : Nat) (evs : List WriteEvent),
      st.sendChunks masks code total idx parts = Except.ok evs →
      ((frameEvents evs).map fun fp => fp.2) =
        parts.map fun c => (f c).take ((f c).length - 4) := by
  intro parts
  induction parts with
  | nil =>
      intro idx total evs h
      simp only [DeflateWriteState.sendChunks] at h
      cases h
      simp [frameEvents]
  | cons c rest ih =>
      intro idx total evs h
      simp only [DeflateWriteState.sendChunks, hcom, hdata] at h
      have hcp : handler.compress [c] = Except.ok (f c) := by
        simp [ComHandler.compress, hf]
      rw [hcp] at h
      simp only [hmask] at h
      obtain ⟨evs2, hrec, hevs⟩ := except_map_ok _ _ _ h
      subst hevs
      rw [frameEvents_frame_cons, frameEvents_resetEvs]
      simp only [List.map_cons, ih (idx + 1) total evs2 hrec]
      rfl

theorem sendChunks_reset_each (st : DeflateWriteState) (handler : ComHandler)
    (masks : Nat → List Nat) (code : OpCode)
    (hcom : st.com = some handler) (hdata : code.is_data = true)
    (hbit : ((st.is_server && handler.config.server_no_context_takeover)
        || (!st.is_server && handler.config.client_no_context_takeover)) = true) :
    ∀ (parts : List (List Nat)) (idx total : Nat) (evs : List WriteEvent),
      st.sendChunks masks code total idx parts = Except.ok evs →
      framesWithReset evs = true ∧ countResets evs = (frameEvents evs).length := by
  intro parts
  induction parts with
  | nil =>
      intro idx total evs h
      simp only [DeflateWriteState.sendChunks] at h
      cases h
      simp [framesWithReset, countResets, frameEvents]
  | cons c rest ih =>
      intro idx total evs h
      simp only [DeflateWriteState.sendChunks, hcom, hdata] at h
      cases hcp : handler.compress [c] with
      | error e => rw [hcp] at h; simp at h
      | ok output =>
          rw [hcp] at h
          simp only [hbit] at h
          obtain ⟨evs2, hrec, hevs⟩ := except_map_ok _ _ _ h
          subst hevs
          obtain ⟨h1, h2⟩ := ih (idx + 1) total evs2 hrec
          constructor
          · simpa [framesWithReset] using h1
          · simp [countResets, frameEvents, List.filter_cons, List.filterMap_cons] at h2 ⊢
            omega

/-! ## Claims -/

/-- C7: for every non-empty payload `P` sent with `auto_fragment_size = n > 0`,
`send` emits exactly `ceil(len(P) / n)` frames, with `fin=true` on the last
emitted frame and `fin=false` on all earlier ones. -/
theorem send_auto_fragment_count_fin (st : DeflateWriteState)
    (masks : Nat → List Nat) (code : OpCode) (payload : List Nat) (n : Nat)
    (evs : List WriteEvent)
    (hn : st.config.auto_fragment_size = n) (hpos : 0 < n) (hne : payload ≠ [])
    (hok : st.send masks code payload = Except.ok evs) :
    (frameEvents evs).length = (payload.length + n - 1) / n ∧
    ((frameEvents evs).map fun fp => fp.1.fin) =
      List.replicate ((payload.length + n - 1) / n - 1) false ++ [true] := by
  have hie : payload.isEmpty = false := by
    cases payload with
    | nil => exact absurd rfl hne
    | cons a t => rfl
  simp only [DeflateWriteState.send, hie, hn, hpos, if_true, Bool.false_eq_true,
    if_false, gt_iff_lt] at hok
  rw [show (chunksOf n payload).length = 0 + (chunksOf n payload).length from
    (Nat.zero_add _).symm] at hok
  obtain ⟨hlen, hpat⟩ := sendChunks_frames st masks code (chunksOf n payload) 0 evs hok
  have hcl : (chunksOf n payload).length = (payload.length + n - 1) / n :=
    chunksOf_length n payload hpos
  have hones : 1 ≤ (payload.length + n - 1) / n := by
    rw [Nat.one_le_div_iff hpos]
    have : 1 ≤ payload.length := by
      cases payload with
      | nil => exact absurd rfl hne
      | cons a t => simp
    omega
  constructor
  · rw [hlen, hcl]
  · rw [hpat, hcl]
    obtain ⟨k, hk⟩ : ∃ k, (payload.length + n - 1) / n = k + 1 :=
      ⟨(payload.length + n - 1) / n - 1, by omega⟩
    rw [hk]
    simp [finPattern]

/-- Witness for C7: `auto_fragment_size = 2` and payload `[1,2,3]` emit
`ceil(3/2) = 2` frames with fins `[false, true]`. -/
theorem send_auto_fragment_count_fin_witness :
    writerPlainFrag.send zeroMasks OpCode.Text [1, 2, 3] = Except.ok evsPlainFrag
    ∧ (frameEvents evsPlainFrag).length = ([1, 2, 3].length + 2 - 1) / 2
    ∧ ((frameEvents evsPlainFrag).map fun fp => fp.1.fin) =
        List.replicate (([1, 2, 3].length + 2 - 1) / 2 - 1) false ++ [true] :=
  ⟨by decide,
   send_auto_fragment_count_fin writerPlainFrag zeroMasks OpCode.Text [1, 2, 3] 2
     evsPlainFrag rfl (by decide) (by decide) (by decide)⟩

/-- C3 counterexample: a two-fragment compressed message sent with the
server's no-context-takeover bit set invokes `reset()` twice — once after
each fragment — not exactly once after the whole message: the first
reset sits between the two frame writes. -/
theorem send_reset_per_fragment_cex :
    writerFragReset.send zeroMasks OpCode.Binary [7, 8] = Except.ok evsFragReset
    ∧ (writerFragReset.send zeroMasks OpCode.Binary [7, 8]).map countResets = Except.ok 2
    ∧ ¬ ((writerFragReset.send zeroMasks OpCode.Binary [7, 8]).map countResets
          = Except.ok 1) := by
  refine ⟨by decide, by decide, ?_⟩
  intro h
  simp only [show writerFragReset.send zeroMasks OpCode.Binary [7, 8]
      = Except.ok evsFragReset from by decide] at h
  exact absurd h (by decide)

/-- C3 as amended: with compression enabled, a data opcode and the local
role's no-context-takeover bit set, a successful `send` of a non-empty
payload invokes `reset()` once per fragment, immediately after each
emitted fragment (not once per message): the trace alternates frame
writes and resets, and the reset count equals the frame count. -/
theorem send_reset_after_each_fragment (st : DeflateWriteState)
    (handler : ComHandler) (masks : Nat → List Nat) (code : OpCode)
    (payload : List Nat) (evs : List WriteEvent)
    (hcom : st.com = some handler) (hdata : code.is_data = true)
    (hbit : ((st.is_server && handler.config.server_no_context_takeover)
        || (!st.is_server && handler.config.client_no_context_takeover)) = true)
    (hne : payload ≠ [])
    (hok : st.send masks code payload = Except.ok evs) :
    framesWithReset evs = true ∧ countResets evs = (frameEvents evs).length := by
  have hie : payload.isEmpty = false := by
    cases payload with
    | nil => exact absurd rfl hne
    | cons a t => rfl
  simp only [DeflateWriteState.send, hie, Bool.false_eq_true, if_false] at hok
  exact sendChunks_reset_each st handler masks code hcom hdata hbit _ _ _ evs hok

/-- Witness for the amended C3 at the two-fragment message `[7,8]`. -/
theorem send_reset_after_each_fragment_witness :
    writerFragReset.send zeroMasks OpCode.Binary [7, 8] = Except.ok evsFragReset
    ∧ framesWithReset evsFragReset = true
    ∧ countResets evsFragReset = (frameEvents evsFragReset).length :=
  ⟨by decide,
   send_reset_after_each_fragment writerFragReset
     { config := pmdNoCtx, com := rawDeflate } zeroMasks OpCode.Binary [7, 8]
     evsFragReset rfl rfl (by decide) (by decide) (by decide)⟩

/-- C1: on the write side, each per-fragment compressor output is framed
with exactly its last 4 bytes (the sync-flush trailer) removed; on the
read side, `receive_one` on a data frame with RSV1 set hands the inflater
the concatenation of the frame payload and `[0x00, 0x00, 0xFF, 0xFF]`,
and the header it returns has RSV1 cleared. -/
theorem pmd_trailer_strip_and_restore :
    (∀ (st : DeflateWriteState) (handler : ComHandler) (f : List Nat → List Nat)
        (masks : Nat → List Nat) (code : OpCode) (payload : List Nat)
        (evs : List WriteEvent),
        st.com = some handler → handler.com = (fun l => Except.ok (f l)) →
        code.is_data = true → st.config.mask_send_frame = false → payload ≠ [] →
        st.send masks code payload = Except.ok evs →
        ((frameEvents evs).map fun fp => fp.2) =
          (chunksOf (if st.config.auto_fragment_size > 0 then
              st.config.auto_fragment_size else payload.length) payload).map
            fun c => (f c).take ((f c).length - 4))
    ∧ (∀ (st : DeflateReadState) (handler : DeHandler) (header : SimplifiedHeader)
        (data inflated : List Nat),
        st.de = some handler → header.rsv1 = true → header.code.is_data = true →
        handler.de (data ++ [0, 0, 255, 255]) = Except.ok inflated →
        st.receive_one header data
          = Except.ok ({ header with rsv1 := false }, inflated)) := by
  constructor
  · intro st handler f masks code payload evs hcom hf hdata hmask hne hok
    have hie : payload.isEmpty = false := by
      cases payload with
      | nil => exact absurd rfl hne
      | cons a t => rfl
    simp only [DeflateWriteState.send, hie, Bool.false_eq_true, if_false] at hok
    exact sendChunks_compressed_payloads st handler f masks code hcom hf hdata hmask
      _ _ _ evs hok
  · intro st handler header data inflated hde hrsv hdata hinf
    simp [DeflateReadState.receive_one, hrsv, hdata, hde, DeHandler.de_compress, hinf]

/-- Witness for C1: fragments `[1,2]` and `[3]` of payload `[1,2,3]`
compressed by `rawDeflate` are framed with the 4-byte trailer stripped,
and a compressed frame `[5]` inflates via the appended trailer with RSV1
cleared. -/
theorem pmd_trailer_strip_and_restore_witness :
    (writerCompressFrag.send zeroMasks OpCode.Text [1, 2, 3] = Except.ok evsCompressFrag
      ∧ ((frameEvents evsCompressFrag).map fun fp => fp.2) = [[1, 2], [3]])
    ∧ (idInflate ([5] ++ [0, 0, 255, 255]) = Except.ok [5, 0, 0, 255, 255]
      ∧ readerInflate.receive_one
          { fin := true, rsv1 := true, rsv2 := false, rsv3 := false, code := OpCode.Text }
          [5]
          = Except.ok
            ({ fin := true, rsv1 := false, rsv2 := false, rsv3 := false
               code := OpCode.Text }, [5, 0, 0, 255, 255])) := by
  constructor
  · refine ⟨by decide, ?_⟩
    exact (pmd_trailer_strip_and_restore.1 writerCompressFrag
      { config := pmdCtx, com := rawDeflate } (fun l => l ++ [0, 0, 255, 255])
      zeroMasks OpCode.Text [1, 2, 3] evsCompressFrag rfl rfl rfl rfl (by decide)
      (by decide)).trans (by decide)
  · refine ⟨by decide, ?_⟩
    exact pmd_trailer_strip_and_restore.2 readerInflate
      { config := pmdCtx, de := idInflate }
      { fin := true, rsv1 := true, rsv2 := false, rsv3 := false, code := OpCode.Text }
      [5] [5, 0, 0, 255, 255] rfl rfl rfl (by decide)

/-- C6: a frame with RSV1 set whose opcode is not a data opcode is
rejected by `receive_one` with protocol error 1002
`CompressedControlFrame`, for every read state (any `merge_frame`
configuration, any inflater — the check precedes any decompression), and
`receive` propagates the error leaving the state unchanged. -/
theorem compressed_control_frame_rejected (st : DeflateReadState)
    (header : SimplifiedHeader) (data : List Nat) (rest : List RawFrame)
    (hrsv : header.rsv1 = true) (hnd : header.code.is_data = false) :
    st.receive_one header data
      = Except.error (WsError.ProtocolError 1002
          ProtocolErrorKind.CompressedControlFrame)
    ∧ DeflateReadState.receive st ((header, data) :: rest)
      = (Except.error (WsError.ProtocolError 1002
          ProtocolErrorKind.CompressedControlFrame), st, rest) := by
  have h1 : st.receive_one header data
      = Except.error (WsError.ProtocolError 1002
          ProtocolErrorKind.CompressedControlFrame) := by
    simp [DeflateReadState.receive_one, hrsv, hnd]
  refine ⟨h1, ?_⟩
  simp only [DeflateReadState.receive, h1]

/-- Witness for C6: a Ping frame with RSV1 set. -/
theorem compressed_control_frame_rejected_witness :
    readerInflate.receive_one
      { fin := true, rsv1 := true, rsv2 := false, rsv3 := false, code := OpCode.Ping }
      [1]
      = Except.error (WsError.ProtocolError 1002
          ProtocolErrorKind.CompressedControlFrame)
    ∧ DeflateReadState.receive readerInflate
        [({ fin := true, rsv1 := true, rsv2 := false, rsv3 := false
            code := OpCode.Ping }, [1])]
      = (Except.error (WsError.ProtocolError 1002
          ProtocolErrorKind.CompressedControlFrame), readerInflate, []) :=
  compressed_control_frame_rejected readerInflate
    { fin := true, rsv1 := true, rsv2 := false, rsv3 := false, code := OpCode.Ping }
    [1] [] rfl rfl

theorem apply_mask_nil (key : List Nat) : apply_mask [] key = [] := rfl

theorem owned_new_nil (code : OpCode) (mask : Option (List Nat)) :
    OwnedFrame.new code mask [] =
      { header := { fin := true, rsv1 := false, rsv2 := false, rsv3 := false
                    mask := mask, code := code }
        payload := [] } := by
  cases mask <;> rfl

/-- C2 counterexample: with compression enabled (`writerCompress`) and the
data opcode Text, sending an empty payload routes the empty frame through
`send_owned_frame`, which compresses it and sets RSV1 — the emitted frame
has RSV1 true, where the claim requires RSV1 not set. -/
theorem send_empty_compressed_rsv1_cex :
    writerCompress.com.isSome = true
    ∧ OpCode.Text.is_data = true
    ∧ writerCompress.send zeroMasks OpCode.Text []
        = Except.ok [WriteEvent.frame
            { fin := true, rsv1 := true, rsv2 := false, rsv3 := false
              mask := none, code := OpCode.Text } []]
    ∧ ((writerCompress.send zeroMasks OpCode.Text []).map
        fun evs => (frameEvents evs).map fun fp => fp.1.rsv1) = Except.ok [true]
    ∧ ¬ (((writerCompress.send zeroMasks OpCode.Text []).map
        fun evs => (frameEvents evs).map fun fp => fp.1.rsv1) = Except.ok [false]) := by
  refine ⟨rfl, rfl, by decide, by decide, ?_⟩
  intro h
  rw [show writerCompress.send zeroMasks OpCode.Text []
      = Except.ok [WriteEvent.frame
        { fin := true, rsv1 := true, rsv2 := false, rsv3 := false
          mask := none, code := OpCode.Text } []] from by decide] at h
  exact absurd h (by decide)

/-- C2 as amended: an empty payload always yields exactly one frame with
`fin=true`.  When compression is disabled or the opcode is not a data
opcode, the frame has an empty payload and RSV1 clear, as the claim
states; but when compression is enabled and the opcode is a data opcode,
the empty payload is routed through `send_owned_frame`, which compresses
it (framing the trailer-stripped compressor output) and sets RSV1. -/
theorem send_empty_payload_amended :
    (∀ (st : DeflateWriteState) (masks : Nat → List Nat) (code : OpCode),
        st.com = none ∨ code.is_data = false →
        st.send masks code [] =
          Except.ok [WriteEvent.frame
            { fin := true, rsv1 := false, rsv2 := false, rsv3 := false
              mask := if st.config.mask_send_frame then some (masks 0) else none
              code := code } []])
    ∧ (∀ (st : DeflateWriteState) (masks : Nat → List Nat) (code : OpCode)
        (handler : ComHandler) (out : List Nat),
        st.com = some handler → code.is_data = true →
        handler.com [] = Except.ok out →
        st.send masks code [] =
          Except.ok
            ((if (st.is_server && handler.config.server_no_context_takeover)
                || (!st.is_server && handler.config.client_no_context_takeover)
              then [WriteEvent.reset] else [])
             ++ [WriteEvent.frame
                  { fin := true, rsv1 := true, rsv2 := false, rsv3 := false
                    mask := if st.config.mask_send_frame then some (masks 0) else none
                    code := code }
                  ((if st.config.mask_send_frame then some (masks 0) else none).elim
                    (out.take (out.length - 4))
                    (fun key => apply_mask (out.take (out.length - 4)) key))])) := by
  constructor
  · intro st masks code h
    simp only [DeflateWriteState.send, List.isEmpty_nil, if_true, owned_new_nil]
    cases hm : st.config.mask_send_frame <;>
      simp only [hm, Bool.false_eq_true, if_false, if_true] <;>
      rcases h with hcom | hdata <;>
      cases hdc : code.is_data <;>
      simp_all [DeflateWriteState.send_owned_frame, OwnedFrame.unmask,
        OwnedFrame.mask, apply_mask_nil]
  · intro st masks code handler out hcom hdata hout
    simp only [DeflateWriteState.send, List.isEmpty_nil, if_true, owned_new_nil]
    have hcp : ComHandler.compress handler [([] : List Nat)] = Except.ok out := by
      simpa [ComHandler.compress] using hout
    cases hm : st.config.mask_send_frame <;>
      simp_all [DeflateWriteState.send_owned_frame, OwnedFrame.unmask,
        OwnedFrame.new, apply_mask_nil]

/-- Witness for the amended C2: with no compressor the empty send emits
one fin frame with RSV1 clear; with a compressor and a data opcode it
emits one fin frame carrying the trailer-stripped compressed empty
message with RSV1 set. -/
theorem send_empty_payload_amended_witness :
    writerPlainFrag.send zeroMasks OpCode.Text [] =
      Except.ok [WriteEvent.frame
        { fin := true, rsv1 := false, rsv2 := false, rsv3 := false
          mask := none, code := OpCode.Text } []]
    ∧ (rawDeflate [] = Except.ok [0, 0, 255, 255]
      ∧ writerCompress.send zeroMasks OpCode.Text [] =
          Except.ok [WriteEvent.frame
            { fin := true, rsv1 := true, rsv2 := false, rsv3 := false
              mask := none, code := OpCode.Text } []]) := by
  constructor
  · exact send_empty_payload_amended.1 writerPlainFrag zeroMasks OpCode.Text (Or.inl rfl)
  · refine ⟨by decide, ?_⟩
    exact (send_empty_payload_amended.2 writerCompress zeroMasks OpCode.Text
      { config := pmdCtx, com := rawDeflate } [0, 0, 255, 255] rfl rfl
      (by decide)).trans (by decide)

/-- C4 counterexample: with `FastFail` and `merge_frame = true`, a
fragmented Text message whose Continue fragment `[0xFF]` is not valid
UTF-8 is accepted and returned merged — the Continue arm of `receive`
performs no UTF-8 validation, where the claim requires a 1007 protocol
error on that fragment. -/
theorem fastfail_continue_not_validated_cex :
    readerFastFail.config.validate_utf8 = ValidateUtf8Policy.FastFail
    ∧ validUtf8 [0xFF] = false
    ∧ (DeflateReadState.receive readerFastFail framesBadContinue).1
        = Except.ok
          ({ fin := true, rsv1 := false, rsv2 := false, rsv3 := false
             code := OpCode.Text }, [0x61, 0xFF])
    ∧ ¬ ((DeflateReadState.receive readerFastFail framesBadContinue).1
        = Except.error (WsError.ProtocolError 1007 ProtocolErrorKind.InvalidUtf8)) := by
  refine ⟨rfl, by decide, by decide, ?_⟩
  intro h
  rw [show (DeflateReadState.receive readerFastFail framesBadContinue).1
      = Except.ok
        ({ fin := true, rsv1 := false, rsv2 := false, rsv3 := false
           code := OpCode.Text }, [0x61, 0xFF]) from by decide] at h
  exact absurd h (by decide)

/-- C4 as amended: with `FastFail` and `merge_frame = true`, `receive`
validates only the initial Text fragment (fin=false) as it arrives,
failing with 1007 `InvalidUtf8` if its bytes are invalid; subsequent
Continue fragments are appended and the merged message returned without
any UTF-8 validation. -/
theorem fastfail_initial_fragment_only :
    (∀ (st : DeflateReadState) (header : SimplifiedHeader) (data : List Nat)
        (rest : List RawFrame),
        st.config.merge_frame = true →
        st.config.validate_utf8 = ValidateUtf8Policy.FastFail →
        st.fragmented = false → header.code = OpCode.Text → header.fin = false →
        header.rsv1 = false → validUtf8 data = false →
        DeflateReadState.receive st ((header, data) :: rest)
          = (Except.error (WsError.ProtocolError 1007 ProtocolErrorKind.InvalidUtf8),
             { st with fragmented := true, fragmented_type := OpCode.Text }, rest))
    ∧ (∀ (st : DeflateReadState) (header : SimplifiedHeader) (data : List Nat)
        (rest : List RawFrame),
        st.config.merge_frame = true → st.fragmented = true →
        header.code = OpCode.Continue → header.fin = true → header.rsv1 = false →
        DeflateReadState.receive st ((header, data) :: rest)
          = (Except.ok ({ header with code := st.fragmented_type },
                st.fragmented_data ++ data),
             { st with fragmented := false
                       fragmented_data := st.fragmented_data ++ data }, rest)) := by
  constructor
  · intro st header data rest hmerge hpol hfrag hcode hfin hrsv hinv
    have h1 : st.receive_one header data = Except.ok (header, data) := by
      simp [DeflateReadState.receive_one, hrsv]
    simp [DeflateReadState.receive, h1, hmerge, hcode, hfrag, hfin, hpol, hinv,
      ValidateUtf8Policy.is_fast_fail]
  · intro st header data rest hmerge hfrag hcode hfin hrsv
    have h1 : st.receive_one header data = Except.ok (header, data) := by
      simp [DeflateReadState.receive_one, hrsv]
    simp [DeflateReadState.receive, h1, hmerge, hcode, hfrag, hfin]

/-- Witness for the amended C4: an invalid initial Text fragment is
rejected with 1007; an invalid Continue fragment is appended and the
merged message returned. -/
theorem fastfail_initial_fragment_only_witness :
    validUtf8 [0xFF] = false
    ∧ DeflateReadState.receive readerFastFail
        [({ fin := false, rsv1 := false, rsv2 := false, rsv3 := false
            code := OpCode.Text }, [0xFF])]
      = (Except.error (WsError.ProtocolError 1007 ProtocolErrorKind.InvalidUtf8),
         { readerFastFail with fragmented := true, fragmented_type := OpCode.Text }, [])
    ∧ DeflateReadState.receive
        { readerFastFail with fragmented := true, fragmented_type := OpCode.Text
                              fragmented_data := [0x61] }
        [({ fin := true, rsv1 := false, rsv2 := false, rsv3 := false
            code := OpCode.Continue }, [0xFF])]
      = (Except.ok
          ({ fin := true, rsv1 := false, rsv2 := false, rsv3 := false
             code := OpCode.Text }, [0x61, 0xFF]),
         { readerFastFail with fragmented := false, fragmented_type := OpCode.Text
                               fragmented_data := [0x61, 0xFF] }, []) :=
  ⟨by decide,
   fastfail_initial_fragment_only.1 readerFastFail
     { fin := false, rsv1 := false, rsv2 := false, rsv3 := false, code := OpCode.Text }
     [0xFF] [] rfl rfl rfl rfl rfl rfl (by decide),
   fastfail_initial_fragment_only.2
     { readerFastFail with fragmented := true, fragmented_type := OpCode.Text
                           fragmented_data := [0x61] }
     { fin := true, rsv1 := false, rsv2 := false, rsv3 := false, code := OpCode.Continue }
     [0xFF] [] rfl rfl rfl rfl rfl⟩

/-- C5 counterexample: with `Check` and `merge_frame = true`, a Text
message reassembled from a Continue chain whose assembled bytes `[0xFF]`
are not valid UTF-8 is returned without validation — the final-Continue
arm of `receive` performs no UTF-8 check, where the claim requires a 1007
protocol error on the assembled message. -/
theorem check_fragmented_not_validated_cex :
    readerCheck.config.validate_utf8 = ValidateUtf8Policy.Check
    ∧ validUtf8 [0xFF] = false
    ∧ (DeflateReadState.receive readerCheck framesBadFragmented).1
        = Except.ok
          ({ fin := true, rsv1 := false, rsv2 := false, rsv3 := false
             code := OpCode.Text }, [0xFF])
    ∧ ¬ ((DeflateReadState.receive readerCheck framesBadFragmented).1
        = Except.error (WsError.ProtocolError 1007 ProtocolErrorKind.InvalidUtf8)) := by
  refine ⟨rfl, by decide, by decide, ?_⟩
  intro h
  rw [show (DeflateReadState.receive readerCheck framesBadFragmented).1
      = Except.ok
        ({ fin := true, rsv1 := false, rsv2 := false, rsv3 := false
           code := OpCode.Text }, [0xFF]) from by decide] at h
  exact absurd h (by decide)

/-- C5 as amended: with `Check` and `merge_frame = true`, `receive`
validates only a Text message that arrives as a single fin=true frame,
failing with 1007 `InvalidUtf8` when its bytes are invalid; a message
reassembled from a fragmented Continue chain is returned without any
UTF-8 validation (the initial fin=false fragment is not checked under
`Check` either, and the final Continue arm never checks). -/
theorem check_single_frame_only :
    (∀ (st : DeflateReadState) (header : SimplifiedHeader) (data : List Nat)
        (rest : List RawFrame),
        st.config.merge_frame = true →
        st.config.validate_utf8 = ValidateUtf8Policy.Check →
        st.fragmented = false → header.code = OpCode.Text → header.fin = true →
        header.rsv1 = false → validUtf8 data = false →
        DeflateReadState.receive st ((header, data) :: rest)
          = (Except.error (WsError.ProtocolError 1007 ProtocolErrorKind.InvalidUtf8),
             st, rest))
    ∧ (∀ (st : DeflateReadState) (header : SimplifiedHeader) (data : List Nat)
        (rest : List RawFrame),
        st.config.merge_frame = true →
        st.config.validate_utf8 = ValidateUtf8Policy.Check →
        st.fragmented = true →
        header.code = OpCode.Continue → header.fin = true → header.rsv1 = false →
        DeflateReadState.receive st ((header, data) :: rest)
          = (Except.ok ({ header with code := st.fragmented_type },
                st.fragmented_data ++ data),
             { st with fragmented := false
                       fragmented_data := st.fragmented_data ++ data }, rest)) := by
  constructor
  · intro st header data rest hmerge hpol hfrag hcode hfin hrsv hinv
    have h1 : st.receive_one header data = Except.ok (header, data) := by
      simp [DeflateReadState.receive_one, hrsv]
    simp [DeflateReadState.receive, h1, hmerge, hcode, hfrag, hfin, hpol, hinv,
      ValidateUtf8Policy.should_check]
  · intro st header data rest hmerge hpol hfrag hcode hfin hrsv
    have h1 : st.receive_one header data = Except.ok (header, data) := by
      simp [DeflateReadState.receive_one, hrsv]
    simp [DeflateReadState.receive, h1, hmerge, hcode, hfrag, hfin]

/-- Witness for the amended C5: an invalid single-frame Text message is
rejected with 1007; an invalid reassembled fragmented message is
returned unvalidated. -/
theorem check_single_frame_only_witness :
    validUtf8 [0xFF] = false
    ∧ DeflateReadState.receive readerCheck
        [({ fin := true, rsv1 := false, rsv2 := false, rsv3 := false
            code := OpCode.Text }, [0xFF])]
      = (Except.error (WsError.ProtocolError 1007 ProtocolErrorKind.InvalidUtf8),
         readerCheck, [])
    ∧ DeflateReadState.receive
        { readerCheck with fragmented := true, fragmented_type := OpCode.Text
                           fragmented_data := [0xFF] }
        [({ fin := true, rsv1 := false, rsv2 := false, rsv3 := false
            code := OpCode.Continue }, [])]
      = (Except.ok
          ({ fin := true, rsv1 := false, rsv2 := false, rsv3 := false
             code := OpCode.Text }, [0xFF]),
         { readerCheck with fragmented := false, fragmented_type := OpCode.Text
                            fragmented_data := [0xFF] }, []) :=
  ⟨by decide,
   check_single_frame_only.1 readerCheck
     { fin := true, rsv1 := false, rsv2 := false, rsv3 := false, code := OpCode.Text }
     [0xFF] [] rfl rfl rfl rfl rfl rfl (by decide),
   by
     have h := check_single_frame_only.2
       { readerCheck with fragmented := true, fragmented_type := OpCode.Text
                          fragmented_data := [0xFF] }
       { fin := true, rsv1 := false, rsv2 := false, rsv3 := false
         code := OpCode.Continue }
       [] [] rfl rfl rfl rfl rfl rfl
     simpa using h⟩

/-- C9: `receive` and `receive_mut` are behaviorally equivalent: on every
read state and incoming frame sequence they return the same header and
payload bytes, produce the same errors, and leave the same final read
state (and the same remaining stream). -/
theorem receive_receive_mut_equiv :
    ∀ (frames : List RawFrame) (st : DeflateReadState),
      DeflateReadState.receive st frames = DeflateReadState.receive_mut st frames := by
  intro frames
  induction frames with
  | nil => intro st; rfl
  | cons f rest ih =>
      intro st
      obtain ⟨header0, data0⟩ := f
      simp only [DeflateReadState.receive, DeflateReadState.receive_mut, ih]

/-- C8: PMD negotiation in the server factory and the client check
function: with offers present the last one is selected (earlier ones
discarded by `pop`) and both window-bits parameters are forced to the
minimum of that offer's client/server values; with no offer the codec is
built without compression state (no inflater, no compressor handle). -/
theorem pmd_negotiation_last_offer_min_bits :
    selectPmd [] = none
    ∧ (∀ (offers : List PMDConfig) (c : PMDConfig), offers.getLast? = some c →
        selectPmd offers = some
          { c with
            client_max_window_bits :=
              Nat.min c.client_max_window_bits c.server_max_window_bits
            server_max_window_bits :=
              Nat.min c.client_max_window_bits c.server_max_window_bits })
    ∧ (∀ (rengine wengine : PMDConfig → List Nat → Except String (List Nat))
        (offers : List PMDConfig),
        ((DeflateCodec.factory rengine wengine offers).1.de.map fun h => h.config)
            = selectPmd offers
        ∧ ((DeflateCodec.factory rengine wengine offers).2.com.map fun h => h.config)
            = selectPmd offers
        ∧ (DeflateCodec.factory rengine wengine offers).1.is_server = true
        ∧ (DeflateCodec.factory rengine wengine offers).2.is_server = true)
    ∧ (∀ (rengine wengine : PMDConfig → List Nat → Except String (List Nat))
        (offers : List PMDConfig),
        (DeflateCodec.check_fn rengine wengine true offers).map
            (fun s => ((s.1.de.map fun h => h.config), (s.2.com.map fun h => h.config)))
          = Except.ok (selectPmd offers, selectPmd offers))
    ∧ (∀ (rengine wengine : PMDConfig → List Nat → Except String (List Nat)),
        (DeflateCodec.factory rengine wengine []).1.de = none
        ∧ (DeflateCodec.factory rengine wengine []).2.com = none
        ∧ (DeflateCodec.check_fn rengine wengine true []).map (fun s => s.1.de.isSome)
            = Except.ok false) := by
  refine ⟨rfl, ?_, ?_, ?_, ?_⟩
  · intro offers c hlast
    simp [selectPmd, hlast]
  · intro rengine wengine offers
    refine ⟨?_, ?_, rfl, rfl⟩ <;>
      · cases h : selectPmd offers <;>
          simp [DeflateCodec.factory, DeflateReadState.with_config,
            DeflateWriteState.with_config, h]
  · intro rengine wengine offers
    cases h : selectPmd offers <;>
      simp [DeflateCodec.check_fn, DeflateReadState.with_config,
        DeflateWriteState.with_config, Except.map, h]
  · intro rengine wengine
    exact ⟨rfl, rfl, rfl⟩

/-- Witness for C8: of two offers the last (window bits 10/12) is
selected and both bits forced to 10. -/
theorem pmd_negotiation_last_offer_min_bits_witness :
    ([pmdCtx,
      { server_no_context_takeover := false, client_no_context_takeover := false
        server_max_window_bits := 12, client_max_window_bits := 10 }].getLast?
      = some { server_no_context_takeover := false, client_no_context_takeover := false
               server_max_window_bits := 12, client_max_window_bits := 10 })
    ∧ selectPmd [pmdCtx,
        { server_no_context_takeover := false, client_no_context_takeover := false
          server_max_window_bits := 12, client_max_window_bits := 10 }]
      = some { server_no_context_takeover := false, client_no_context_takeover := false
               server_max_window_bits := 10, client_max_window_bits := 10 } :=
  ⟨by decide,
   (pmd_negotiation_last_offer_min_bits.2.1
     [pmdCtx,
      { server_no_context_takeover := false, client_no_context_takeover := false
        server_max_window_bits := 12, client_max_window_bits := 10 }]
     { server_no_context_takeover := false, client_no_context_takeover := false
       server_max_window_bits := 12, client_max_window_bits := 10 }
     (by decide)).trans (by decide)⟩

/-- C10 as a code defect, evaluated at the failing input: a compressed
data frame whose header has `fin=false` (`continueFrame`) is emitted by
`send_owned_frame` with `fin=true` — the frame rebuild uses
`OwnedFrame::new` (whose header has `fin=true`) and the subsequent
`header.set_fin(header.fin())` reads the new frame's own header, so the
input frame's fin bit is dropped (the opcode is preserved). -/
theorem send_owned_frame_fin_not_preserved :
    continueFrame.header.fin = false
    ∧ continueFrame.header.code = OpCode.Continue
    ∧ writerCompress.send_owned_frame continueFrame
        = Except.ok [WriteEvent.frame
            { fin := true, rsv1 := true, rsv2 := false, rsv3 := false
              mask := none, code := OpCode.Continue } [1]]
    ∧ ¬ (writerCompress.send_owned_frame continueFrame
        = Except.ok [WriteEvent.frame
            { fin := false, rsv1 := true, rsv2 := false, rsv3 := false
              mask := none, code := OpCode.Continue } [1]]) := by
  refine ⟨rfl, rfl, by decide, ?_⟩
  intro h
  rw [show writerCompress.send_owned_frame continueFrame
      = Except.ok [WriteEvent.frame
        { fin := true, rsv1 := true, rsv2 := false, rsv3 := false
          mask := none, code := OpCode.Continue } [1]] from by decide] at h
  exact absurd h (by decide)
